import Mathlib

/-!
Shallow embedding of `mimemail.py` (class `MIMEMail` and its helpers).

Texts are modelled as lists of Unicode code points (`Nat`), byte strings as
lists of `Nat` below 256.  The Python `email` library constructors are
modelled by the data they record (content type, charset tag, payload,
disposition filename); exceptions are modelled with `Except`.
-/

namespace Mimemail

/-- A Unicode text: the list of its code points.  `unicodeutils.decode`
coerces the input to such a text, so `set_body` always works on one. -/
abbrev Text := List Nat

/-- A byte string. -/
abbrev Bytes := List Nat

/-- A Unicode scalar value: a code point below 0x110000 that is not a
surrogate.  Strict UTF-8 encodes exactly these. -/
def isScalar (c : Nat) : Bool :=
  decide (c < 0x110000) && !(decide (0xD800 ≤ c) && decide (c < 0xE000))

/-- Python `text.encode('ascii')` succeeds iff every code point is below 128. -/
def asciiEncodable (t : Text) : Bool := t.all (fun c => decide (c < 128))

/-- Python `text.encode('iso-8859-1')` succeeds iff every code point is below 256. -/
def latin1Encodable (t : Text) : Bool := t.all (fun c => decide (c < 256))

/-- Python `text.encode('utf-8')` succeeds on texts of Unicode scalar values. -/
def utf8Encodable (t : Text) : Bool := t.all isScalar

/-- A Unicode text proper: all of its code points are scalar values. -/
def ValidText (t : Text) : Prop := utf8Encodable t = true

instance (t : Text) : Decidable (ValidText t) := by
  unfold ValidText; infer_instance

/-- The ASCII codec: the identity on code points below 128. -/
def asciiEncode (t : Text) : Option Bytes :=
  if asciiEncodable t then some t else none

/-- The ISO-8859-1 codec: the identity on code points below 256. -/
def latin1Encode (t : Text) : Option Bytes :=
  if latin1Encodable t then some t else none

/-- Standard UTF-8 encoding of one code point (1 to 4 bytes by range). -/
def utf8EncodeChar (c : Nat) : Bytes :=
  if c < 0x80 then [c]
  else if c < 0x800 then [0xC0 + c / 64, 0x80 + c % 64]
  else if c < 0x10000 then
    [0xE0 + c / 4096, 0x80 + c / 64 % 64, 0x80 + c % 64]
  else
    [0xF0 + c / 262144, 0x80 + c / 4096 % 64, 0x80 + c / 64 % 64, 0x80 + c % 64]

/-- UTF-8 encoding of a text. -/
def utf8EncodeText (t : Text) : Bytes := (t.map utf8EncodeChar).flatten

/-- The UTF-8 codec on texts (strict: defined on scalar-value texts). -/
def utf8Encode (t : Text) : Option Bytes :=
  if utf8Encodable t then some (utf8EncodeText t) else none

/-- A UTF-8 continuation byte. -/
def isCont (b : Nat) : Bool := decide (0x80 ≤ b) && decide (b < 0xC0)

/-- Decode one UTF-8-encoded code point from the front of a byte
string: the code point and the remaining bytes.  Strict: rejects bad
leads, truncated sequences, overlong forms, surrogates and code points
above 0x10FFFF. -/
def utf8DecodeOne : Bytes → Option (Nat × Bytes)
  | [] => none
  | b :: bs =>
    if b < 0x80 then some (b, bs)
    else if b < 0xC2 then none
    else if b < 0xE0 then
      match bs with
      | b1 :: bs1 =>
        if isCont b1 then some ((b - 0xC0) * 64 + (b1 - 0x80), bs1) else none
      | [] => none
    else if b < 0xF0 then
      match bs with
      | b1 :: b2 :: bs1 =>
        if isCont b1 && isCont b2 then
          let c := (b - 0xE0) * 4096 + (b1 - 0x80) * 64 + (b2 - 0x80)
          if c < 0x800 then none
          else if 0xD800 ≤ c ∧ c < 0xE000 then none
          else some (c, bs1)
        else none
      | _ => none
    else if b < 0xF5 then
      match bs with
      | b1 :: b2 :: b3 :: bs1 =>
        if isCont b1 && isCont b2 && isCont b3 then
          let c := (b - 0xF0) * 262144 + (b1 - 0x80) * 4096
                     + (b2 - 0x80) * 64 + (b3 - 0x80)
          if c < 0x10000 then none
          else if 0x110000 ≤ c then none
          else some (c, bs1)
        else none
      | _ => none
    else none

theorem utf8DecodeOne_length (l : Bytes) (c : Nat) (rest : Bytes)
    (h : utf8DecodeOne l = some (c, rest)) : rest.length < l.length := by
  match l with
  | [] => simp [utf8DecodeOne] at h
  | b :: bs =>
    unfold utf8DecodeOne at h
    repeat' split at h
    all_goals simp_all
    all_goals omega

/-- Strict UTF-8 decoding of a byte string (`bytes.decode('utf-8')`):
decode code points from the front until the input is exhausted. -/
def utf8Decode (l : Bytes) : Option Text :=
  match h : utf8DecodeOne l with
  | some (c, rest) => (utf8Decode rest).map (fun t => c :: t)
  | none => if l = [] then some [] else none
termination_by l.length
decreasing_by exact utf8DecodeOne_length l c rest h

/-- The three charsets `set_body` tries, in source order. -/
inductive Charset where
  | ascii
  | iso8859_1
  | utf8
deriving DecidableEq, Repr

/-- The codec name the source passes to `encode` / `MIMEText`. -/
def charsetName : Charset → String
  | .ascii => "ascii"
  | .iso8859_1 => "iso-8859-1"
  | .utf8 => "utf-8"

/-- The canonical charset tag the `email` library records on the part:
`email.charset.ALIASES` maps `ascii` to `us-ascii` and leaves the other
two names unchanged. -/
def charsetTag : Charset → String
  | .ascii => "us-ascii"
  | .iso8859_1 => "iso-8859-1"
  | .utf8 => "utf-8"

/-- Python `text.encode(name)` for each of the three charsets. -/
def encodeWith : Charset → Text → Option Bytes
  | .ascii, t => asciiEncode t
  | .iso8859_1, t => latin1Encode t
  | .utf8, t => utf8Encode t

/-- Whether a charset encodes a text without loss. -/
def charsetEncodable : Charset → Text → Bool
  | .ascii, t => asciiEncodable t
  | .iso8859_1, t => latin1Encodable t
  | .utf8, t => utf8Encodable t

/-- The priority order of `set_body`: `'ascii', 'iso-8859-1', 'utf-8'`. -/
def bodyCharsets : List Charset := [.ascii, .iso8859_1, .utf8]

/-- The loop of `set_body`: try each charset in order, keep the first
success (charset together with the encoded payload). -/
def encodeBody (t : Text) : Option (Charset × Bytes) :=
  match asciiEncode t with
  | some bs => some (.ascii, bs)
  | none =>
    match latin1Encode t with
    | some bs => some (.iso8859_1, bs)
    | none =>
      match utf8Encode t with
      | some bs => some (.utf8, bs)
      | none => none

/-- Which constructor `set_attachments` uses for a part: one of the five
native MIME families from its lookup table, or the `MIMEBase` fallback
with `encode_base64` explicitly applied. -/
inductive AttEncoder where
  | nativeText
  | nativeImage
  | nativeAudio
  | nativeMessage
  | nativeApplication
  | genericBase64
deriving DecidableEq, Repr

/-- The maintype lookup table of `set_attachments`, with the `KeyError`
default branch. -/
def pickEncoder (maintype : String) : AttEncoder :=
  if maintype = "text" then .nativeText
  else if maintype = "image" then .nativeImage
  else if maintype = "audio" then .nativeAudio
  else if maintype = "message" then .nativeMessage
  else if maintype = "application" then .nativeApplication
  else .genericBase64

/-- The data recorded on one attachment part. -/
structure Attachment where
  maintype : String
  subtype : String
  data : Bytes
  encoder : AttEncoder
  filename : String
deriving DecidableEq, Repr

/-- A part of the multipart message. -/
inductive Part where
  /-- A `MIMEText(payload, subtype, charset)` part (the body). -/
  | bodyPart (subtype : String) (charset : String) (payload : Bytes)
  /-- The unencoded text attached when every charset attempt failed. -/
  | bodyRaw (t : Text)
  /-- An attachment part. -/
  | att (a : Attachment)
deriving DecidableEq, Repr

/-- The recipients dictionary.  A field is `none` when its key is absent
from the dictionary, `some l` when the key maps to the list `l`. -/
structure Recipients where
  toAddrs : Option (List String) := none
  ccAddrs : Option (List String) := none
  bccAddrs : Option (List String) := none
deriving DecidableEq, Repr

/-- The state of a `MIMEMail` object. -/
structure MIMEMail where
  parts : List Part := []
  recipients : Recipients := {}
deriving DecidableEq, Repr

/-- Model of `self.message.attach(part)`. -/
def attach (m : MIMEMail) (p : Part) : MIMEMail :=
  { m with parts := m.parts ++ [p] }

/-- Model of `MIMEMail.set_body`: try `ascii`, `iso-8859-1`, `utf-8` in order,
wrap the first successful encoding as a `text/plain` part tagged with
that charset, and attach it; were every attempt to fail, the bare text
would be attached instead. -/
def setBody (m : MIMEMail) (t : Text) : MIMEMail :=
  match encodeBody t with
  | some (cs, bs) => attach m (Part.bodyPart "plain" (charsetTag cs) bs)
  | none => attach m (Part.bodyRaw t)

/-- A Python argument that may be a single value or a list of values. -/
inductive ListOrSingle (α : Type) where
  | single (a : α)
  | list (l : List α)

/-- Model of `if type(x) not in (tuple, list): x = [x]`. -/
def ListOrSingle.toList {α : Type} : ListOrSingle α → List α
  | .single a => [a]
  | .list l => l

/-- Model of `key.lower()`: lowercase each character (for the class keys in play
this agrees with Python's `str.lower`). -/
def lower (s : String) : String := String.mk (s.data.map Char.toLower)

/-- Model of `self.recipient_types`. -/
def recipient_types : List String := ["to", "cc", "bcc"]

/-- Model of `self.recipients[key] = recipients` for a validated key. -/
def setClass (r : Recipients) (key : String) (v : List String) : Recipients :=
  if key = "to" then { r with toAddrs := some v }
  else if key = "cc" then { r with ccAddrs := some v }
  else if key = "bcc" then { r with bccAddrs := some v }
  else r

/-- Model of `MIMEMail.set_recipients`: default a falsy key to `'to'`, lowercase
it, reject keys outside `recipient_types` with `MIMEMailError("Invalid
recipient type")`, normalize a single address to a list, and store the
list under the key. -/
def setRecipients (m : MIMEMail) (recipients : ListOrSingle String)
    (key : Option String := none) : Except String MIMEMail :=
  let k :=
    match key with
    | none => "to"
    | some s => if s = "" then "to" else s
  let k1 := lower k
  if k1 ∈ recipient_types then
    Except.ok { m with recipients := setClass m.recipients k1 recipients.toList }
  else
    Except.error "Invalid recipient type"

/-- Split a character list on a separator, Python-`str.split` style:
the empty list splits to one empty field. -/
def splitChar (sep : Char) : List Char → List (List Char)
  | [] => [[]]
  | c :: cs =>
    let r := splitChar sep cs
    if c = sep then [] :: r
    else
      match r with
      | [] => [[c]]
      | x :: xs => (c :: x) :: xs

/-- Model of `os.path.basename`: the portion of the path after the last slash. -/
def basename (path : String) : String :=
  String.mk ((splitChar (Char.ofNat 47) path.data).getLastD path.data)

/-- Model of `ctype.split('/', 1)`: the maintype before the first slash and the
subtype after it.  Every content type reaching this point contains a
slash (`mimetypes.guess_type` results and the octet-stream fallback do). -/
def splitType (ctype : String) : String × String :=
  match splitChar (Char.ofNat 47) ctype.data with
  | [] => (ctype, "")
  | [x] => (String.mk x, "")
  | x :: rest => (String.mk x, String.mk (List.intercalate [Char.ofNat 47] rest))

/-- One result of `mimetypes.guess_type`: the guessed content type, if
any, and the guessed compression encoding, if any. -/
abbrev GuessType := String → Option String × Option String

/-- A model of the filesystem: the bytes `open(path, 'rb').read()`
returns for each path. -/
abbrev FileReader := String → Bytes

/-- The content type after the fallback of `set_attachments`:
`if ctype is None or encoding is not None: ctype = 'application/octet-stream'`. -/
def effectiveCtype (guess : GuessType) (path : String) : String :=
  let g := guess path
  if g.1 = none ∨ g.2 ≠ none then "application/octet-stream"
  else g.1.getD "application/octet-stream"

/-- The attachment part `set_attachments` builds for one path. -/
def mkAttachment (guess : GuessType) (read : FileReader) (path : String) :
    Attachment :=
  let ctype := effectiveCtype guess path
  let mt := (splitType ctype).1
  let st := (splitType ctype).2
  { maintype := mt
    subtype := st
    data := read path
    encoder := pickEncoder mt
    filename := basename path }

/-- Model of `MIMEMail.set_attachments`: for each path in order, guess and
normalize the content type, read the bytes, build the part, tag it with
the disposition filename, and attach it. -/
def setAttachments (guess : GuessType) (read : FileReader) (m : MIMEMail)
    (paths : ListOrSingle String) : MIMEMail :=
  paths.toList.foldl (fun acc path => attach acc (Part.att (mkAttachment guess read path))) m

/-- Model of `format_address` on a list: the single-address formatting
(`parseaddr`, header-encoded display name, `formataddr`) is the
uninterpreted function `fmt1`; a list is formatted element-wise and
joined with `", "`. -/
def format_address (fmt1 : String → String) (l : List String) : String :=
  String.intercalate ", " (l.map fmt1)

/-- What `send` hands to the outside world: the headers it set on the
message, the preamble, and the envelope passed to `smtp.sendmail`. -/
structure Sent where
  headers : List (String × String)
  preamble : String
  envelopeFrom : String
  envelopeRecipients : List String
deriving DecidableEq, Repr

/-- Model of `self.recipients.values()` as a list (the dictionary holds at most
the three class keys; iteration order is immaterial to the claims). -/
def recipientValues (r : Recipients) : List (List String) :=
  ([r.toAddrs, r.ccAddrs, r.bccAddrs]).filterMap id

/-- Model of `sum((r for r in self.recipients.values() if r), [])`. -/
def envelopeList (r : Recipients) : List String :=
  ((recipientValues r).filter (fun l => l ≠ [])).flatten

/-- Model of `MIMEMail.send` (header finalization and envelope construction):
sets `To` and `CC` iff the corresponding key is in the recipients
dictionary, then `From` and `Subject`, sets the preamble to the encoded
subject, and passes the flattened non-empty recipient lists to
`smtp.sendmail`.  `fmt1` models single-address formatting and `hdr`
models `encode_header`. -/
def send (fmt1 : String → String) (hdr : String → String) (m : MIMEMail)
    (subject : String) (sender : String) : Sent :=
  let toHdr :=
    match m.recipients.toAddrs with
    | some l => [("To", format_address fmt1 l)]
    | none => []
  let ccHdr :=
    match m.recipients.ccAddrs with
    | some l => [("CC", format_address fmt1 l)]
    | none => []
  { headers := toHdr ++ ccHdr ++ [("From", fmt1 sender), ("Subject", hdr subject)]
    preamble := hdr subject
    envelopeFrom := sender
    envelopeRecipients := envelopeList m.recipients }

/-! ## Helper lemmas -/

theorem utf8Decode_nil : utf8Decode [] = some [] := by
  rw [utf8Decode]
  simp [utf8DecodeOne]

theorem utf8Decode_step (l : Bytes) (c : Nat) (rest : Bytes)
    (h : utf8DecodeOne l = some (c, rest)) :
    utf8Decode l = (utf8Decode rest).map (fun t => c :: t) := by
  rw [utf8Decode]
  split
  · next c1 rest1 heq =>
    rw [h] at heq
    simp only [Option.some.injEq, Prod.mk.injEq] at heq
    rw [heq.1, heq.2]
  · next heq =>
    rw [h] at heq
    simp at heq

theorem utf8DecodeOne_encodeChar (c : Nat) (hc : isScalar c = true) (bs : Bytes) :
    utf8DecodeOne (utf8EncodeChar c ++ bs) = some (c, bs) := by
  simp only [isScalar, Bool.and_eq_true, Bool.not_eq_eq_eq_not, Bool.not_true,
    Bool.and_eq_false_imp, decide_eq_true_eq, decide_eq_false_iff_not, not_lt] at hc
  by_cases h1 : c < 0x80
  · simp [utf8EncodeChar, utf8DecodeOne, h1]
  · by_cases h2 : c < 0x800
    · have e0 : ¬(0xC0 + c / 64 < 0x80) := by omega
      have e1 : ¬(0xC0 + c / 64 < 0xC2) := by omega
      have e2 : 0xC0 + c / 64 < 0xE0 := by omega
      have e3 : isCont (0x80 + c % 64) = true := by
        simp only [isCont, Bool.and_eq_true, decide_eq_true_eq]
        omega
      simp only [utf8EncodeChar, h1, h2, if_true, if_false, List.cons_append,
        List.nil_append, utf8DecodeOne, e0, e1, e2, e3, ite_true, ite_false]
      have ev : (0xC0 + c / 64 - 0xC0) * 64 + (0x80 + c % 64 - 0x80) = c := by omega
      simp only [ev]
    · by_cases h3 : c < 0x10000
      · have e0 : ¬(0xE0 + c / 4096 < 0x80) := by omega
        have e1 : ¬(0xE0 + c / 4096 < 0xC2) := by omega
        have e2 : ¬(0xE0 + c / 4096 < 0xE0) := by omega
        have e3 : 0xE0 + c / 4096 < 0xF0 := by omega
        have e4 : isCont (0x80 + c / 64 % 64) = true := by
          simp only [isCont, Bool.and_eq_true, decide_eq_true_eq]
          omega
        have e5 : isCont (0x80 + c % 64) = true := by
          simp only [isCont, Bool.and_eq_true, decide_eq_true_eq]
          omega
        have ev : (0xE0 + c / 4096 - 0xE0) * 4096 + (0x80 + c / 64 % 64 - 0x80) * 64
            + (0x80 + c % 64 - 0x80) = c := by omega
        simp only [utf8EncodeChar, h1, h2, h3, if_true, if_false, List.cons_append,
          List.nil_append, utf8DecodeOne, e0, e1, e2, e3, e4, e5, Bool.and_self,
          ite_true, ite_false, ev]
        have n1 : ¬(c < 0x800) := h2
        have n2 : ¬(0xD800 ≤ c ∧ c < 0xE000) := by omega
        simp [n1, n2]
      · have h4 : c < 0x110000 := hc.1
        have e0 : ¬(0xF0 + c / 262144 < 0x80) := by omega
        have e1 : ¬(0xF0 + c / 262144 < 0xC2) := by omega
        have e2 : ¬(0xF0 + c / 262144 < 0xE0) := by omega
        have e3 : ¬(0xF0 + c / 262144 < 0xF0) := by omega
        have e4 : 0xF0 + c / 262144 < 0xF5 := by omega
        have e5 : isCont (0x80 + c / 4096 % 64) = true := by
          simp only [isCont, Bool.and_eq_true, decide_eq_true_eq]
          omega
        have e6 : isCont (0x80 + c / 64 % 64) = true := by
          simp only [isCont, Bool.and_eq_true, decide_eq_true_eq]
          omega
        have e7 : isCont (0x80 + c % 64) = true := by
          simp only [isCont, Bool.and_eq_true, decide_eq_true_eq]
          omega
        have ev : (0xF0 + c / 262144 - 0xF0) * 262144 + (0x80 + c / 4096 % 64 - 0x80) * 4096
            + (0x80 + c / 64 % 64 - 0x80) * 64 + (0x80 + c % 64 - 0x80) = c := by omega
        simp only [utf8EncodeChar, h1, h2, h3, if_true, if_false, List.cons_append,
          List.nil_append, utf8DecodeOne, e0, e1, e2, e3, e4, e5, e6, e7, Bool.and_self,
          ite_true, ite_false, ev]
        have n1 : ¬(c < 0x10000) := h3
        have n2 : ¬(0x110000 ≤ c) := by omega
        simp [n1, n2]

theorem utf8_roundtrip (t : Text) (h : ValidText t) :
    utf8Decode (utf8EncodeText t) = some t := by
  induction t with
  | nil => simpa [utf8EncodeText] using utf8Decode_nil
  | cons c rest ih =>
    simp only [ValidText, utf8Encodable, List.all_cons, Bool.and_eq_true] at h
    have hc : isScalar c = true := h.1
    have hrest : ValidText rest := h.2
    have hsplit : utf8EncodeText (c :: rest) = utf8EncodeChar c ++ utf8EncodeText rest := by
      simp [utf8EncodeText]
    rw [hsplit, utf8Decode_step _ c _ (utf8DecodeOne_encodeChar c hc _), ih hrest]
    rfl

/-- A body part (set by `set_body`), as opposed to an attachment part. -/
def Part.isBody : Part → Bool
  | .bodyPart _ _ _ => true
  | .bodyRaw _ => true
  | .att _ => false

theorem encodeBody_spec (t : Text) (h : ValidText t) :
    (asciiEncodable t = true ∧ encodeBody t = some (Charset.ascii, t)) ∨
    (asciiEncodable t = false ∧ latin1Encodable t = true ∧
      encodeBody t = some (Charset.iso8859_1, t)) ∨
    (asciiEncodable t = false ∧ latin1Encodable t = false ∧
      encodeBody t = some (Charset.utf8, utf8EncodeText t)) := by
  have h2 : utf8Encodable t = true := h
  by_cases ha : asciiEncodable t
  · exact Or.inl ⟨ha, by simp [encodeBody, asciiEncode, ha]⟩
  · by_cases hl : latin1Encodable t
    · exact Or.inr (Or.inl ⟨by simpa using ha, hl,
        by simp [encodeBody, asciiEncode, latin1Encode, ha, hl]⟩)
    · exact Or.inr (Or.inr ⟨by simpa using ha, by simpa using hl,
        by simp [encodeBody, asciiEncode, latin1Encode, utf8Encode, ha, hl, h2]⟩)

theorem setBody_of_encode (m : MIMEMail) (t : Text) (cs : Charset) (bs : Bytes)
    (h : encodeBody t = some (cs, bs)) :
    (setBody m t).parts = m.parts ++ [Part.bodyPart "plain" (charsetTag cs) bs] := by
  simp [setBody, h, attach]

/-! ## Claim theorems -/

/-- C1: `set_body` selects the first charset in the fixed priority order
`us-ascii`, `iso-8859-1`, `utf-8` under which the body encodes without
loss, and tags the resulting `text/plain` part with that charset; in
particular every `us-ascii`-encodable body gets `us-ascii`. -/
theorem c1_body_charset_priority (m : MIMEMail) (t : Text) (h : ValidText t) :
    ∃ cs bs, bodyCharsets.find? (fun c => charsetEncodable c t) = some cs ∧
      encodeWith cs t = some bs ∧
      (setBody m t).parts = m.parts ++ [Part.bodyPart "plain" (charsetTag cs) bs] ∧
      (asciiEncodable t = true → charsetTag cs = "us-ascii") := by
  have h2 : utf8Encodable t = true := h
  rcases encodeBody_spec t h with ⟨ha, he⟩ | ⟨ha, hl, he⟩ | ⟨ha, hl, he⟩
  · exact ⟨.ascii, t, by simp [bodyCharsets, charsetEncodable, ha],
      by simp [encodeWith, asciiEncode, ha], setBody_of_encode m t _ _ he, fun _ => rfl⟩
  · refine ⟨.iso8859_1, t, ?_, ?_, setBody_of_encode m t _ _ he, ?_⟩
    · simp [bodyCharsets, List.find?, charsetEncodable, ha, hl]
    · simp [encodeWith, latin1Encode, hl]
    · intro hcontra
      rw [ha] at hcontra
      exact absurd hcontra (by simp)
  · refine ⟨.utf8, utf8EncodeText t, ?_, ?_, setBody_of_encode m t _ _ he, ?_⟩
    · simp [bodyCharsets, List.find?, charsetEncodable, ha, hl, h2]
    · simp [utf8Encode, encodeWith, h2]
    · intro hcontra
      rw [ha] at hcontra
      exact absurd hcontra (by simp)

/-- Witness for C1 at the ASCII body `"hi"` (code points 104, 105). -/
theorem c1_witness :
    ValidText [104, 105] ∧
    (∃ cs bs, bodyCharsets.find? (fun c => charsetEncodable c [104, 105]) = some cs ∧
      encodeWith cs [104, 105] = some bs ∧
      (setBody {} [104, 105]).parts = [] ++ [Part.bodyPart "plain" (charsetTag cs) bs] ∧
      (asciiEncodable [104, 105] = true → charsetTag cs = "us-ascii")) :=
  ⟨by decide, by
    have h := c1_body_charset_priority {} [104, 105] (by decide)
    simpa using h⟩

/-- C6: a body with a code point outside Latin-1 is encoded as UTF-8,
and decoding the tagged payload with UTF-8 recovers the original text. -/
theorem c6_utf8_roundtrip_body (m : MIMEMail) (t : Text) (h : ValidText t)
    (hbig : t.any (fun c => decide (256 ≤ c)) = true) :
    (setBody m t).parts = m.parts ++ [Part.bodyPart "plain" "utf-8" (utf8EncodeText t)] ∧
    utf8Decode (utf8EncodeText t) = some t := by
  have hbig2 : ∃ c ∈ t, 256 ≤ c := by
    simpa only [List.any_eq_true, decide_eq_true_eq] using hbig
  obtain ⟨c0, hc0, h256⟩ := hbig2
  have hl : latin1Encodable t = false := by
    by_contra hcon
    have hall : latin1Encodable t = true := by simpa using hcon
    simp only [latin1Encodable, List.all_eq_true, decide_eq_true_eq] at hall
    exact absurd (hall c0 hc0) (by omega)
  have ha : asciiEncodable t = false := by
    by_contra hcon
    have hall : asciiEncodable t = true := by simpa using hcon
    simp only [asciiEncodable, List.all_eq_true, decide_eq_true_eq] at hall
    exact absurd (hall c0 hc0) (by omega)
  rcases encodeBody_spec t h with ⟨ha2, _⟩ | ⟨_, hl2, _⟩ | ⟨_, _, he⟩
  · rw [ha] at ha2; exact absurd ha2 (by simp)
  · rw [hl] at hl2; exact absurd hl2 (by simp)
  · exact ⟨setBody_of_encode m t _ _ he, utf8_roundtrip t h⟩

/-- Witness for C6 at the body `[0x2603]` (the snowman character). -/
theorem c6_witness :
    ValidText [0x2603] ∧ List.any [0x2603] (fun c => decide (256 ≤ c)) = true ∧
    ((setBody {} [0x2603]).parts = [] ++ [Part.bodyPart "plain" "utf-8" (utf8EncodeText [0x2603])] ∧
      utf8Decode (utf8EncodeText [0x2603]) = some [0x2603]) :=
  ⟨by decide, by decide, c6_utf8_roundtrip_body {} [0x2603] (by decide) (by decide)⟩

/-- C8: every `set_body` call appends exactly one body part, leaving all
previous parts unchanged; two calls append two body parts. -/
theorem c8_setBody_appends (m : MIMEMail) (t1 t2 : Text) :
    (∃ p, (setBody m t1).parts = m.parts ++ [p] ∧ p.isBody = true) ∧
    (setBody (setBody m t1) t2).parts.length = m.parts.length + 2 := by
  have step : ∀ (m1 : MIMEMail) (t : Text),
      ∃ p, (setBody m1 t).parts = m1.parts ++ [p] ∧ p.isBody = true := by
    intro m1 t
    unfold setBody
    match encodeBody t with
    | some (cs, bs) => exact ⟨Part.bodyPart "plain" (charsetTag cs) bs, rfl, rfl⟩
    | none => exact ⟨Part.bodyRaw t, rfl, rfl⟩
  refine ⟨step m t1, ?_⟩
  obtain ⟨p1, hp1, _⟩ := step m t1
  obtain ⟨p2, hp2, _⟩ := step (setBody m t1) t2
  simp [hp2, hp1]

/-- C9: `set_body` always succeeds on a Unicode text and attaches one
charset-wrapped part: the trailing `utf-8` attempt never fails, so the
all-charsets-failed branch (attaching the raw text) is unreachable. -/
theorem c9_setBody_total (m : MIMEMail) (t : Text) (h : ValidText t) :
    encodeBody t ≠ none ∧
    ∃ cs bs, encodeBody t = some (cs, bs) ∧
      (setBody m t).parts = m.parts ++ [Part.bodyPart "plain" (charsetTag cs) bs] := by
  rcases encodeBody_spec t h with ⟨_, he⟩ | ⟨_, _, he⟩ | ⟨_, _, he⟩ <;>
    exact ⟨by simp [he], _, _, he, setBody_of_encode m t _ _ he⟩

/-- Witness for C9 at the body `[97]`. -/
theorem c9_witness :
    ValidText [97] ∧
    (encodeBody [97] ≠ none ∧
      ∃ cs bs, encodeBody [97] = some (cs, bs) ∧
        (setBody {} [97]).parts = [] ++ [Part.bodyPart "plain" (charsetTag cs) bs]) :=
  ⟨by decide, c9_setBody_total {} [97] (by decide)⟩

/-- C2: with a non-empty `bcc` class, the headers `send` renders are the
same as with the `bcc` class absent or empty (so no bcc address can
appear in any header field), while every bcc address is in the recipient
list passed to `smtp.sendmail`. -/
theorem c2_bcc_delivery_only (fmt1 hdr : String → String) (m : MIMEMail)
    (subject sender : String) (l : List String)
    (hbcc : m.recipients.bccAddrs = some l) (hne : l ≠ []) :
    (send fmt1 hdr m subject sender).headers =
      (send fmt1 hdr { m with recipients := { m.recipients with bccAddrs := none } }
        subject sender).headers ∧
    (send fmt1 hdr m subject sender).headers =
      (send fmt1 hdr { m with recipients := { m.recipients with bccAddrs := some [] } }
        subject sender).headers ∧
    l ⊆ (send fmt1 hdr m subject sender).envelopeRecipients := by
  refine ⟨rfl, rfl, ?_⟩
  intro a ha
  simp only [send, envelopeList, recipientValues, hbcc, List.mem_flatten, List.mem_filter,
    List.mem_filterMap, id_eq, exists_eq_right]
  exact ⟨l, ⟨by simp, by simpa using hne⟩, ha⟩

/-- Witness for C2: `to = ["a@x.com"]`, `bcc = ["b@x.com"]`. -/
theorem c2_witness :
    ({ parts := [], recipients :=
        { toAddrs := some ["a@x.com"], ccAddrs := none, bccAddrs := some ["b@x.com"] } } :
      MIMEMail).recipients.bccAddrs = some ["b@x.com"] ∧
    (["b@x.com"] : List String) ≠ [] ∧
    ((send id id { parts := [], recipients :=
        { toAddrs := some ["a@x.com"], ccAddrs := none, bccAddrs := some ["b@x.com"] } }
        "s" "f").headers =
      (send id id { parts := [], recipients :=
        { toAddrs := some ["a@x.com"], ccAddrs := none, bccAddrs := none } } "s" "f").headers ∧
    (send id id { parts := [], recipients :=
        { toAddrs := some ["a@x.com"], ccAddrs := none, bccAddrs := some ["b@x.com"] } }
        "s" "f").headers =
      (send id id { parts := [], recipients :=
        { toAddrs := some ["a@x.com"], ccAddrs := none, bccAddrs := some [] } } "s" "f").headers ∧
    (["b@x.com"] : List String) ⊆
      (send id id { parts := [], recipients :=
        { toAddrs := some ["a@x.com"], ccAddrs := none, bccAddrs := some ["b@x.com"] } }
        "s" "f").envelopeRecipients) :=
  ⟨rfl, by decide,
    c2_bcc_delivery_only id id _ "s" "f" ["b@x.com"] rfl (by decide)⟩

/-- C3: a truthy class key lowercasing outside `{to, cc, bcc}` makes
`set_recipients` raise `MIMEMailError` and produce no new state, so the
stored recipients are exactly what they were before the call. -/
theorem c3_invalid_class_error (m : MIMEMail) (r : ListOrSingle String) (s : String)
    (hs : s ≠ "") (hinv : lower s ∉ recipient_types) :
    setRecipients m r (some s) = Except.error "Invalid recipient type" ∧
    (setRecipients m r (some s)).toOption = none := by
  have h1 : setRecipients m r (some s) = Except.error "Invalid recipient type" := by
    simp [setRecipients, hs, hinv]
  exact ⟨h1, by simp [h1, Except.toOption]⟩

/-- Witness for C3 at the key `"spam"`. -/
theorem c3_witness :
    ("spam" : String) ≠ "" ∧ lower "spam" ∉ recipient_types ∧
    (setRecipients {} (ListOrSingle.list ["a@x.com"]) (some "spam") =
        Except.error "Invalid recipient type" ∧
      (setRecipients {} (ListOrSingle.list ["a@x.com"]) (some "spam")).toOption = none) :=
  ⟨by decide, by decide,
    c3_invalid_class_error {} (ListOrSingle.list ["a@x.com"]) "spam" (by decide) (by decide)⟩

/-- C10: a falsy class key (omitted or empty) stores the addresses under
the `to` class instead of raising, and for a truthy key the invalid-class
error occurs exactly when its lowercasing is outside `{to, cc, bcc}`. -/
theorem c10_falsy_key_defaults_to_to (m : MIMEMail) (r : ListOrSingle String)
    (key : Option String) (s : String)
    (hfalsy : key = none ∨ key = some "") (hs : s ≠ "") :
    setRecipients m r key =
      Except.ok { m with recipients := { m.recipients with toAddrs := some r.toList } } ∧
    (setRecipients m r (some s) = Except.error "Invalid recipient type" ↔
      lower s ∉ recipient_types) := by
  constructor
  · have hto : lower "to" = "to" := by decide
    rcases hfalsy with h | h <;> subst h <;>
      simp [setRecipients, recipient_types, setClass, hto]
  · by_cases hinv : lower s ∈ recipient_types
    · simp [setRecipients, hs, hinv]
    · simp [setRecipients, hs, hinv]

/-- Witness for C10: omitted key and the truthy key `"junk"`. -/
theorem c10_witness :
    ((none : Option String) = none ∨ (none : Option String) = some "") ∧
    ("junk" : String) ≠ "" ∧
    (setRecipients {} (ListOrSingle.list ["a@x.com"]) none =
        Except.ok { parts := [], recipients :=
          { toAddrs := some ["a@x.com"], ccAddrs := none, bccAddrs := none } } ∧
      (setRecipients {} (ListOrSingle.list ["a@x.com"]) (some "junk") =
          Except.error "Invalid recipient type" ↔
        lower "junk" ∉ recipient_types)) :=
  ⟨Or.inl rfl, by decide,
    c10_falsy_key_defaults_to_to {} (ListOrSingle.list ["a@x.com"]) none "junk"
      (Or.inl rfl) (by decide)⟩

theorem setAttachments_foldl (guess : GuessType) (read : FileReader)
    (m : MIMEMail) (paths : List String) :
    (setAttachments guess read m (ListOrSingle.list paths)).parts =
      m.parts ++ paths.map (fun p => Part.att (mkAttachment guess read p)) := by
  induction paths generalizing m with
  | nil => simp [setAttachments, ListOrSingle.toList]
  | cons p rest ih =>
    simp only [setAttachments, ListOrSingle.toList, List.foldl_cons] at ih ⊢
    rw [ih (attach m (Part.att (mkAttachment guess read p)))]
    simp [attach]

/-- C4: attachment parts appear in the message in exactly the input
path order, and each part's disposition filename is the base name of
its path (directory stripped); e.g. `/tmp/reports/Q3.pdf` yields
`Q3.pdf`. -/
theorem c4_attachment_order_and_filenames (guess : GuessType) (read : FileReader)
    (m : MIMEMail) (paths : List String) :
    (setAttachments guess read m (ListOrSingle.list paths)).parts =
      m.parts ++ paths.map (fun p => Part.att (mkAttachment guess read p)) ∧
    paths.map (fun p => (mkAttachment guess read p).filename) = paths.map basename ∧
    basename "/tmp/reports/Q3.pdf" = "Q3.pdf" := by
  refine ⟨setAttachments_foldl guess read m paths, ?_, by decide⟩
  simp [mkAttachment]

/-- C5: an unrecognized or compression-encoded guess falls back to
`application/octet-stream`, and a maintype outside the five-family
lookup table yields the generic `MIMEBase` part with base64 explicitly
applied. -/
theorem c5_ctype_fallback_and_base64 (guess : GuessType) (read : FileReader)
    (path path2 : String)
    (hfb : (guess path).1 = none ∨ (guess path).2 ≠ none)
    (hout : (splitType (effectiveCtype guess path2)).1 ∉
      ["text", "image", "audio", "message", "application"]) :
    effectiveCtype guess path = "application/octet-stream" ∧
    (mkAttachment guess read path).maintype = "application" ∧
    (mkAttachment guess read path).subtype = "octet-stream" ∧
    (mkAttachment guess read path2).encoder = AttEncoder.genericBase64 := by
  have h1 : effectiveCtype guess path = "application/octet-stream" := by
    simp only [effectiveCtype]
    rw [if_pos hfb]
  refine ⟨h1, ?_, ?_, ?_⟩
  · simp [mkAttachment, h1]
    decide
  · simp [mkAttachment, h1]
    decide
  · simp only [List.mem_cons, List.not_mem_nil, or_false, not_or] at hout
    obtain ⟨n1, n2, n3, n4, n5⟩ := hout
    simp [mkAttachment, pickEncoder, n1, n2, n3, n4, n5]

/-- An example `mimetypes.guess_type`: `.mp4` paths guess `video/mp4`
(as the real table does), everything else is unrecognized. -/
def guessEx : GuessType :=
  fun p => if p = "movie.mp4" then (some "video/mp4", none) else (none, none)

/-- An example filesystem: every file is empty. -/
def readEx : FileReader := fun _ => []

/-- Witness for C5: `file.xyz` has no recognized type; `movie.mp4`
guesses `video/mp4`, whose maintype is outside the lookup table. -/
theorem c5_witness :
    ((guessEx "file.xyz").1 = none ∨ (guessEx "file.xyz").2 ≠ none) ∧
    ((splitType (effectiveCtype guessEx "movie.mp4")).1 ∉
      ["text", "image", "audio", "message", "application"]) ∧
    (effectiveCtype guessEx "file.xyz" = "application/octet-stream" ∧
      (mkAttachment guessEx readEx "file.xyz").maintype = "application" ∧
      (mkAttachment guessEx readEx "file.xyz").subtype = "octet-stream" ∧
      (mkAttachment guessEx readEx "movie.mp4").encoder = AttEncoder.genericBase64) :=
  ⟨by decide, by decide,
    c5_ctype_fallback_and_base64 guessEx readEx "file.xyz" "movie.mp4"
      (by decide) (by decide)⟩

/-- C7 as stated is false: after `set_recipients([], 'to')` the `to`
key is present with an empty address list, and `send` still renders a
`To` header (with an empty value) although no address exists in the
class.  The first conjunct shows the state is reachable through the
API; the second refutes the biconditional at that state. -/
theorem c7_counterexample :
    setRecipients {} (ListOrSingle.list []) (some "to") =
      Except.ok { parts := [], recipients :=
        { toAddrs := some [], ccAddrs := none, bccAddrs := none } } ∧
    ¬ ((((send id id { parts := [], recipients :=
          { toAddrs := some [], ccAddrs := none, bccAddrs := none } } "s" "f").headers.any
            fun p => decide (p.1 = "To")) = true) ↔ ([] : List String) ≠ []) := by
  constructor
  · rfl
  · decide

/-- C7 amended: the rendered output of `send` contains a `To` header iff
the `to` key is present in the recipients dictionary (even with an empty
address list), and a `CC` header iff the `cc` key is present; an absent
class produces no header. -/
theorem c7_header_iff_class_key_present (fmt1 hdr : String → String) (m : MIMEMail)
    (subject sender : String) :
    ((send fmt1 hdr m subject sender).headers.any fun p => decide (p.1 = "To")) =
      m.recipients.toAddrs.isSome ∧
    ((send fmt1 hdr m subject sender).headers.any fun p => decide (p.1 = "CC")) =
      m.recipients.ccAddrs.isSome := by
  cases hto : m.recipients.toAddrs <;> cases hcc : m.recipients.ccAddrs <;>
    simp [send, hto, hcc]

end Mimemail
